import Mathlib

/-!
Verification of the Network-Discovery-Tool core (src/scanner) against its
natural-language specification.

The Python source is shallowly embedded: bytes are `List Nat` (each byte a
value `< 256`), Python `str` is Lean `String`, `dict` results of the TLV
parsers are structures of `Option` fields, and the thread-shared manager
state is passed explicitly.  Machine integers do not overflow anywhere in
the source (Python ints are unbounded), so `Nat` is used directly.
-/

namespace NetDiscovery

/-! ### Python string and byte helpers -/

/-- The NUL character `'\x00'`. -/
def nulChar : Char := Char.ofNat 0

/-- Python `str.upper` restricted to ASCII (every string the scanners feed
through it - MAC strings of hex digits and colons - is ASCII). -/
def asciiUpperChar (c : Char) : Char :=
  if 97 ≤ c.toNat ∧ c.toNat ≤ 122 then Char.ofNat (c.toNat - 32) else c

/-- Python `str.lower` restricted to ASCII (the brand-indicator strings and
platform/board strings compared in the source are ASCII). -/
def asciiLowerChar (c : Char) : Char :=
  if 65 ≤ c.toNat ∧ c.toNat ≤ 90 then Char.ofNat (c.toNat + 32) else c

/-- Python `s.upper()` (ASCII model). -/
def pyUpper (s : String) : String := String.mk (s.data.map asciiUpperChar)

/-- Python `s.lower()` (ASCII model). -/
def pyLower (s : String) : String := String.mk (s.data.map asciiLowerChar)

/-- Python `s.strip('\x00')`: removes NUL characters from BOTH ends. -/
def pyStrip0 (s : String) : String :=
  String.mk (((s.data.dropWhile (· == nulChar)).reverse.dropWhile (· == nulChar)).reverse)

/-- Hex digit (uppercase) for a value `< 16`. -/
def hexDigit (n : Nat) : Char :=
  if n < 10 then Char.ofNat (48 + n) else Char.ofNat (55 + n)

/-- Big-endian uppercase hex digits of `n` (no padding); fuel-structured so
that it evaluates by kernel reduction.  `n + 1` units of fuel always
suffice since the digit count of `n` is at most `n + 1`. -/
def natToHexGo : Nat → Nat → List Char
  | 0, _ => []
  | fuel + 1, n =>
    if n < 16 then [hexDigit n]
    else natToHexGo fuel (n / 16) ++ [hexDigit (n % 16)]

/-- All uppercase hex digits of `n`. -/
def natToHex (n : Nat) : List Char := natToHexGo (n + 1) n

/-- Python `f'{b:02X}'`: uppercase hex, left-padded with `'0'` to at least
two digits. -/
def pyFormat02X (n : Nat) : String :=
  let ds := natToHex n
  String.mk (List.replicate (2 - ds.length) '0' ++ ds)

/-- Python `sep.join(xs)`. -/
def pyJoin (sep : String) : List String → String
  | [] => ""
  | [x] => x
  | x :: y :: xs => x ++ sep ++ pyJoin sep (y :: xs)

/-- `':'.join(f'{b:02X}' for b in bs)` - the MAC rendering both decoders use. -/
def formatMac (bs : List Nat) : String := pyJoin ":" (bs.map pyFormat02X)

/-- `'.'.join(str(b) for b in bs)` - the dotted-quad IPv4 rendering. -/
def formatIpv4 (bs : List Nat) : String := pyJoin "." (bs.map (fun b => toString b))

/-- `struct.unpack('>H', [hi, lo])`. -/
def be16 (hi lo : Nat) : Nat := hi * 256 + lo

/-- `struct.unpack('<H', [lo, hi])`. -/
def le16 (lo hi : Nat) : Nat := lo + hi * 256

/-- `struct.unpack('>I', bs)` for a 4-byte list. -/
def beU32 (bs : List Nat) : Nat := bs.foldl (fun acc b => acc * 256 + b) 0

/-- `struct.unpack('<I', bs)` for a 4-byte list. -/
def leU32 (bs : List Nat) : Nat := bs.reverse.foldl (fun acc b => acc * 256 + b) 0

/-- Whether a byte is a UTF-8 continuation byte (`0x80..0xBF`). -/
def isUtf8Cont (b : Nat) : Bool := 0x80 ≤ b && b ≤ 0xBF

/-- Python `bytes.decode('utf-8', errors='ignore')` on the byte list:
valid UTF-8 sequences become their code points, bytes belonging to an
invalid or truncated sequence are dropped (the maximal valid subpart of a
broken sequence is skipped, as CPython's `ignore` handler does).
Fuel-structured so the kernel can evaluate it; every step consumes at
least one byte, so fuel equal to the byte count suffices. -/
def utf8DecodeIgnoreGo : Nat → List Nat → List Char
  | 0, _ => []
  | _, [] => []
  | fuel + 1, b :: rest =>
    if b < 0x80 then Char.ofNat b :: utf8DecodeIgnoreGo fuel rest
    else if 0xC2 ≤ b ∧ b ≤ 0xDF then
      match rest with
      | [] => []
      | c1 :: rest1 =>
        if isUtf8Cont c1 then
          Char.ofNat ((b - 0xC0) * 64 + (c1 - 0x80)) :: utf8DecodeIgnoreGo fuel rest1
        else utf8DecodeIgnoreGo fuel rest
    else if 0xE0 ≤ b ∧ b ≤ 0xEF then
      match rest with
      | [] => []
      | c1 :: rest1 =>
        if (if b = 0xE0 then 0xA0 ≤ c1 && c1 ≤ 0xBF
            else if b = 0xED then 0x80 ≤ c1 && c1 ≤ 0x9F
            else isUtf8Cont c1) then
          match rest1 with
          | [] => []
          | c2 :: rest2 =>
            if isUtf8Cont c2 then
              Char.ofNat ((b - 0xE0) * 4096 + (c1 - 0x80) * 64 + (c2 - 0x80)) ::
                utf8DecodeIgnoreGo fuel rest2
            else utf8DecodeIgnoreGo fuel rest1
        else utf8DecodeIgnoreGo fuel rest
    else if 0xF0 ≤ b ∧ b ≤ 0xF4 then
      match rest with
      | [] => []
      | c1 :: rest1 =>
        if (if b = 0xF0 then 0x90 ≤ c1 && c1 ≤ 0xBF
            else if b = 0xF4 then 0x80 ≤ c1 && c1 ≤ 0x8F
            else isUtf8Cont c1) then
          match rest1 with
          | [] => []
          | c2 :: rest2 =>
            if isUtf8Cont c2 then
              match rest2 with
              | [] => []
              | c3 :: rest3 =>
                if isUtf8Cont c3 then
                  Char.ofNat ((b - 0xF0) * 262144 + (c1 - 0x80) * 4096 +
                      (c2 - 0x80) * 64 + (c3 - 0x80)) :: utf8DecodeIgnoreGo fuel rest3
                else utf8DecodeIgnoreGo fuel rest2
            else utf8DecodeIgnoreGo fuel rest1
        else utf8DecodeIgnoreGo fuel rest
    else utf8DecodeIgnoreGo fuel rest

/-- `value.decode('utf-8', errors='ignore')` as a `String`. -/
def decodeUtf8Ignore (bs : List Nat) : String := String.mk (utf8DecodeIgnoreGo bs.length bs)

/-- `needle in hay` on character lists (Python substring containment). -/
def listContainsSub (needle : List Char) : List Char → Bool
  | [] => needle.isEmpty
  | c :: t => List.isPrefixOf needle (c :: t) || listContainsSub needle t

/-- Python `needle in hay` for strings. -/
def pyContains (hay needle : String) : Bool := listContainsSub needle.data hay.data

/-! ### Device (src/scanner/base.py) -/

/-- `Device` dataclass from `src/scanner/base.py`.  Timestamps are abstract
`Nat` instants (`datetime.now()` values). -/
structure Device where
  brand : String
  ip : String
  mac : String
  name : String
  model : String := ""
  firmware : String := ""
  uptime : Nat := 0
  discoveredAt : Nat := 0
  lastSeen : Nat := 0
deriving Repr, DecidableEq

/-- `Device.unique_id`: the uppercased MAC address. -/
def Device.uniqueId (d : Device) : String := pyUpper d.mac

/-! ### Ubiquiti decoder (src/scanner/ubnt.py) -/

/-- The `result` dict built by `UbiquitiScanner._parse_tlv`; a key absent
from the dict is `none`. -/
structure UbntFields where
  mac : Option String := none
  ip : Option String := none
  firmware : Option String := none
  hostname : Option String := none
  model : Option String := none
  uptime : Option Nat := none
deriving Repr, DecidableEq

/-- One iteration body of `UbiquitiScanner._parse_tlv`'s `if`/`elif` chain:
how a single TLV `(tlv_type, value)` updates the `result` dict.
Types: `0x01` MAC, `0x02` MAC+IP, `0x03` firmware, `0x0B` hostname,
`0x0C` short model (only when no model yet), `0x14` full model,
`0x0E` uptime (4-byte big-endian). -/
def ubntApplyTlv (r : UbntFields) (tlvType : Nat) (value : List Nat) : UbntFields :=
  if tlvType = 0x01 then
    if 6 ≤ value.length then { r with mac := some (formatMac (value.take 6)) } else r
  else if tlvType = 0x02 then
    if 10 ≤ value.length then
      { r with mac := some (formatMac (value.take 6)),
               ip := some (formatIpv4 ((value.drop 6).take 4)) }
    else r
  else if tlvType = 0x03 then
    { r with firmware := some (pyStrip0 (decodeUtf8Ignore value)) }
  else if tlvType = 0x0B then
    { r with hostname := some (pyStrip0 (decodeUtf8Ignore value)) }
  else if tlvType = 0x0C then
    if r.model = none then { r with model := some (pyStrip0 (decodeUtf8Ignore value)) } else r
  else if tlvType = 0x14 then
    { r with model := some (pyStrip0 (decodeUtf8Ignore value)) }
  else if tlvType = 0x0E then
    if 4 ≤ value.length then { r with uptime := some (beU32 (value.take 4)) } else r
  else r

/-- The `while offset + 3 <= len(data)` loop of `UbiquitiScanner._parse_tlv`,
with the untouched suffix `data[offset:]` passed explicitly: read a 1-byte
type and 2-byte big-endian length, break (returning the accumulated dict)
when the declared length runs past the buffer end, otherwise consume the
value and continue.  No operation in the loop body can raise, so the
source's `try`/`except` inside the loop has no effect. -/
def ubntParseTlvAux (r : UbntFields) : List Nat → UbntFields
  | t :: l1 :: l2 :: rest =>
    let tlvLen := be16 l1 l2
    if rest.length < tlvLen then r
    else ubntParseTlvAux (ubntApplyTlv r t (rest.take tlvLen)) (rest.drop tlvLen)
  | _ => r
termination_by data => data.length
decreasing_by simp [List.length_drop]; omega

/-- `UbiquitiScanner._parse_tlv`. -/
def ubntParseTlv (data : List Nat) : UbntFields := ubntParseTlvAux {} data

/-- `UbiquitiScanner.parse_packet` from the raw UDP payload on: the layer
and port checks having passed, `srcIp` is the outer IP source address and
`now` the construction instant of the returned `Device`. -/
def ubntParsePacket (payload : List Nat) (srcIp : String) (now : Nat) : Option Device :=
  if payload.length < 6 then none
  else if payload.take 2 ≠ [0x01, 0x00] ∧ payload.take 2 ≠ [0x02, 0x00] then none
  else
    let tlv := ubntParseTlv (payload.drop 4)
    let mac := tlv.mac.getD ""
    if mac = "" then none
    else some { brand := "Ubiquiti",
                ip := tlv.ip.getD srcIp,
                mac := mac,
                name := tlv.hostname.getD "Unknown",
                model := tlv.model.getD "",
                firmware := tlv.firmware.getD "",
                uptime := tlv.uptime.getD 0,
                discoveredAt := now,
                lastSeen := now }

/-! ### MNDP decoder (src/scanner/mimosa.py) -/

/-- The `result` dict built by `MNDPScanner._parse_tlv`. -/
structure MndpFields where
  mac : Option String := none
  identity : Option String := none
  version : Option String := none
  platform : Option String := none
  board : Option String := none
  uptime : Option Nat := none
  ip : Option String := none
deriving Repr, DecidableEq

/-- One iteration body of `MNDPScanner._parse_tlv`'s `if`/`elif` chain.
Types: `0x0001` MAC, `0x0005` identity, `0x0007` version, `0x0008`
platform, `0x000E` board, `0x000A` uptime (4-byte little-endian),
`0x0014` IPv4. -/
def mndpApplyTlv (r : MndpFields) (tlvType : Nat) (value : List Nat) : MndpFields :=
  if tlvType = 0x0001 then
    if 6 ≤ value.length then { r with mac := some (formatMac (value.take 6)) } else r
  else if tlvType = 0x0005 then
    { r with identity := some (pyStrip0 (decodeUtf8Ignore value)) }
  else if tlvType = 0x0007 then
    { r with version := some (pyStrip0 (decodeUtf8Ignore value)) }
  else if tlvType = 0x0008 then
    { r with platform := some (pyStrip0 (decodeUtf8Ignore value)) }
  else if tlvType = 0x000E then
    { r with board := some (pyStrip0 (decodeUtf8Ignore value)) }
  else if tlvType = 0x000A then
    if 4 ≤ value.length then { r with uptime := some (leU32 (value.take 4)) } else r
  else if tlvType = 0x0014 then
    if 4 ≤ value.length then { r with ip := some (formatIpv4 (value.take 4)) } else r
  else r

/-- The `while offset + 4 <= len(data)` loop of `MNDPScanner._parse_tlv`:
2-byte little-endian type, 2-byte little-endian length, same soft stop on
overrun.  As in the Ubiquiti loop, no body operation can raise. -/
def mndpParseTlvAux (r : MndpFields) : List Nat → MndpFields
  | t0 :: t1 :: l0 :: l1 :: rest =>
    let tlvType := le16 t0 t1
    let tlvLen := le16 l0 l1
    if rest.length < tlvLen then r
    else mndpParseTlvAux (mndpApplyTlv r tlvType (rest.take tlvLen)) (rest.drop tlvLen)
  | _ => r
termination_by data => data.length
decreasing_by simp [List.length_drop]; omega

/-- `MNDPScanner._parse_tlv`. -/
def mndpParseTlv (data : List Nat) : MndpFields := mndpParseTlvAux {} data

/-- The fixed indicator list of `MNDPScanner._detect_brand`. -/
def mikrotikIndicators : List String :=
  ["routerboard", "rb", "ccr", "crs", "css", "hex", "hap",
   "mikrotik", "routeros", "chr", "ltap", "wap", "disc",
   "sxt", "lhg", "basebox", "netbox", "netmetal", "powerbox"]

/-- `MNDPScanner._detect_brand`: scans the lower-cased string
`platform + ' ' + board` (note the space the source inserts between the
two) for `"mimosa"`, then for any Mikrotik indicator.  The source loops
over the indicator list returning `'Mikrotik'` at the first hit, which is
equivalent to `List.any`. -/
def detectBrand (platform board : String) : String :=
  let combined := pyLower (platform ++ " " ++ board)
  if pyContains combined "mimosa" then "Mimosa"
  else if mikrotikIndicators.any (fun ind => pyContains combined ind) then "Mikrotik"
  else "Mikrotik/MNDP"

/-- `MNDPScanner.parse_packet` from the raw UDP payload on (layer and port
checks having passed). -/
def mndpParsePacket (payload : List Nat) (srcIp : String) (now : Nat) : Option Device :=
  if payload.length < 4 then none
  else
    let tlv := mndpParseTlv payload
    let mac := tlv.mac.getD ""
    if mac = "" then none
    else
      let platform := tlv.platform.getD ""
      let board := tlv.board.getD ""
      some { brand := detectBrand platform board,
             ip := tlv.ip.getD srcIp,
             mac := mac,
             name := tlv.identity.getD "Unknown",
             model := if board ≠ "" then board else platform,
             firmware := tlv.version.getD "",
             uptime := tlv.uptime.getD 0,
             discoveredAt := now,
             lastSeen := now }

/-! ### Scanner manager (src/scanner/manager.py)

`self._devices` is a Python `dict` (insertion-ordered, unique keys); it is
embedded as an association list.  Updating an existing key rewrites the
value in place, inserting a fresh key appends. -/

structure ManagerState where
  devices : List (String × Device) := []
  running : Bool := false
deriving Repr, DecidableEq

/-- `self._devices[unique_id] = device` for a key already present: replace
the value, keep dict order. -/
def dictSet (devs : List (String × Device)) (k : String) (d : Device) :
    List (String × Device) :=
  devs.map (fun p => if p.1 == k then (p.1, d) else p)

/-- Which notification `_on_device_discovered` fires (if the corresponding
callback is registered), and with which Device. -/
inductive DiscEvent where
  | newDevice (d : Device)
  | updatedDevice (d : Device)
deriving Repr, DecidableEq

/-- `ScannerManager._on_device_discovered`: under the lock, look up
`device.unique_id`; on a hit mutate the existing record's `last_seen`
(to `now`) and - when it differs - its `ip`, then fire the update
notification with the mutated record; on a miss insert the new device and
fire the new-device notification with it. -/
def onDeviceDiscovered (s : ManagerState) (d : Device) (now : Nat) :
    ManagerState × DiscEvent :=
  let uid := d.uniqueId
  match List.lookup uid s.devices with
  | some existing =>
    let existing := { existing with lastSeen := now }
    let existing := if existing.ip ≠ d.ip then { existing with ip := d.ip } else existing
    ({ s with devices := dictSet s.devices uid existing }, .updatedDevice existing)
  | none =>
    ({ s with devices := s.devices ++ [(uid, d)] }, .newDevice d)

/-- `ScannerManager._build_filter`, abstracted over the ports of the
registered scanners. -/
def buildFilter (ports : List Nat) : String :=
  let portStrs := ports.map (fun p => toString p)
  if portStrs = [] then "udp"
  else "udp and (port " ++ pyJoin " or port " portStrs ++ ")"

/-- `ScannerManager.start`: when already running it returns unchanged;
otherwise it sets `_running = True` and launches the sniff thread. -/
def startManager (s : ManagerState) : ManagerState :=
  if s.running then s else { s with running := true }

/-- `ScannerManager._sniff_loop` when `sniff` raises `PermissionError`:
the `except PermissionError` arm and the `finally` arm only print; neither
`_running` nor `_devices` is touched, so the loop exit leaves the manager
state exactly as it was. -/
def sniffLoopPermissionErrorExit (s : ManagerState) : ManagerState := s

/-- `ScannerManager.is_running`. -/
def isRunning (s : ManagerState) : Bool := s.running

/-- `ScannerManager.get_devices`: `list(self._devices.values())`. -/
def getDevices (s : ManagerState) : List Device := s.devices.map (fun p => p.2)

/-- `ScannerManager.get_device_count`: `len(self._devices)`. -/
def getDeviceCount (s : ManagerState) : Nat := s.devices.length

/-! ### Reference/aliasing model of the registry (for the snapshot claim)

In Python, `list(self._devices.values())` builds a NEW list whose elements
are references to the SAME mutable `Device` objects the dict holds.  To
make that observable, the registry is also modelled with an explicit heap:
`heap` holds the Device records, `registry` maps each key to the index
(address) of its record, and `getDevicesRefs` returns the fresh list of
addresses a caller receives. -/

structure RegHeapState where
  heap : List Device
  registry : List (String × Nat)
deriving Repr, DecidableEq

/-- The value `get_devices()` hands the caller: a new list whose elements
are the registry's device references. -/
def getDevicesRefs (s : RegHeapState) : List Nat := s.registry.map (fun p => p.2)

/-- Overwrite the `ip` field of the record at heap address `a`. -/
def setIpAt : List Device → Nat → String → List Device
  | [], _, _ => []
  | d :: t, 0, ip => { d with ip := ip } :: t
  | d :: t, n + 1, ip => d :: setIpAt t n ip

/-- A caller mutating `device.ip` through a reference it got from
`get_devices()`. -/
def writeDeviceIp (s : RegHeapState) (a : Nat) (ip : String) : RegHeapState :=
  { s with heap := setIpAt s.heap a ip }

/-- What the registry itself sees: each key with the record its reference
currently points at. -/
def registryView (s : RegHeapState) : List (String × Device) :=
  s.registry.filterMap (fun p => (s.heap.get? p.2).map (fun d => (p.1, d)))

/-! ### Lock/callback trace of `_on_device_discovered` (for the
lock-released claim)

The handler's body is `with self._lock: ...` with the notification call
INSIDE the `with` block.  Its control flow is embedded as the sequence of
atomic steps the source executes, each paired below with the number of
lock holds active when the step runs. -/

inductive HandlerStep where
  | lockAcquire
  | lockRelease
  | storeDevice
  | updateDevice
  | invokeNewCb
  | invokeUpdateCb
deriving Repr, DecidableEq

/-- The steps `_on_device_discovered` executes: enter the `with self._lock`
block, store or update the device, invoke the matching callback if one is
registered (still inside the block), and only then release the lock at the
block's end. -/
def onDiscoveredSteps (isNew hasNewCb hasUpdateCb : Bool) : List HandlerStep :=
  [.lockAcquire] ++
  (if isNew then
    [.storeDevice] ++ (if hasNewCb then [.invokeNewCb] else [])
   else
    [.updateDevice] ++ (if hasUpdateCb then [.invokeUpdateCb] else [])) ++
  [.lockRelease]

/-- Pair every step with the lock depth at the moment it runs (`lockAcquire`
runs at the old depth and raises it; `lockRelease` runs while still
holding). -/
def withLockDepth : Nat → List HandlerStep → List (HandlerStep × Nat)
  | _, [] => []
  | d, s :: t =>
    (s, d) ::
      withLockDepth
        (match s with
         | .lockAcquire => d + 1
         | .lockRelease => d - 1
         | _ => d) t

/-- Trace of the handler annotated with lock depths, starting unlocked. -/
def onDiscoveredTrace (isNew hasNewCb hasUpdateCb : Bool) : List (HandlerStep × Nat) :=
  withLockDepth 0 (onDiscoveredSteps isNew hasNewCb hasUpdateCb)

/-- Whether a step is one of the two notification-callback invocations. -/
def isCallbackStep (s : HandlerStep) : Bool :=
  s == .invokeNewCb || s == .invokeUpdateCb

/-- `threading.RLock` state: owning thread (if any) and hold count. -/
structure RLockState where
  owner : Option Nat
  count : Nat
deriving Repr, DecidableEq

/-- Whether an `acquire` by thread `t` blocks: only when another thread
holds the lock.  A re-entrant acquire by the owner always succeeds
immediately. -/
def rlockAcquireBlocks (l : RLockState) (t : Nat) : Bool :=
  match l.owner with
  | some o => decide (o ≠ t) && decide (0 < l.count)
  | none => false

/-! ### TLV encoders (verification harness)

These build byte streams in the wire formats the decoders consume
(`src/scanner/ubnt.py` / `src/scanner/mimosa.py` docstrings): Ubiquiti -
1-byte type, 2-byte big-endian length, value; MNDP - 2-byte little-endian
type, 2-byte little-endian length, value. -/

/-- Encode one Ubiquiti TLV (type byte, big-endian length, value). -/
def encodeUbntTlv (t : Nat) (v : List Nat) : List Nat :=
  t :: (v.length / 256) :: (v.length % 256) :: v

/-- Encode a Ubiquiti TLV stream. -/
def encodeUbntTlvs : List (Nat × List Nat) → List Nat
  | [] => []
  | tv :: rest => encodeUbntTlv tv.1 tv.2 ++ encodeUbntTlvs rest

/-- Encode one MNDP TLV (little-endian type, little-endian length, value). -/
def encodeMndpTlv (t : Nat) (v : List Nat) : List Nat :=
  (t % 256) :: (t / 256) :: (v.length % 256) :: (v.length / 256) :: v

/-- Encode an MNDP TLV stream. -/
def encodeMndpTlvs : List (Nat × List Nat) → List Nat
  | [] => []
  | tv :: rest => encodeMndpTlv tv.1 tv.2 ++ encodeMndpTlvs rest

/-- A synthetic Ubiquiti discovery payload: the version/command header
(`01 00 00 00`), then the TLV stream at offset 4. -/
def mkUbntPayload (tlvs : List (Nat × List Nat)) : List Nat :=
  [0x01, 0x00, 0x00, 0x00] ++ encodeUbntTlvs tlvs

/-! ### Parsing encoded TLV streams -/

/-- `ubntApplyTlv` folded over a TLV list, starting from the empty dict. -/
def ubntFold (l : List (Nat × List Nat)) (r : UbntFields) : UbntFields :=
  l.foldl (fun a tv => ubntApplyTlv a tv.1 tv.2) r

/-- `mndpApplyTlv` folded over a TLV list. -/
def mndpFold (l : List (Nat × List Nat)) (r : MndpFields) : MndpFields :=
  l.foldl (fun a tv => mndpApplyTlv a tv.1 tv.2) r

theorem ubntParseTlvAux_nil (r : UbntFields) : ubntParseTlvAux r [] = r := by
  rw [ubntParseTlvAux]
  exact fun _ _ _ _ h => List.noConfusion h

theorem mndpParseTlvAux_nil (r : MndpFields) : mndpParseTlvAux r [] = r := by
  rw [mndpParseTlvAux]
  exact fun _ _ _ _ _ h => List.noConfusion h

/-- Parsing an encoded TLV stream followed by anything first folds all the
encoded TLVs into the dict, then continues on the remainder. -/
theorem ubntParseTlvAux_encode_append (l : List (Nat × List Nat)) (r : UbntFields)
    (tail : List Nat) :
    ubntParseTlvAux r (encodeUbntTlvs l ++ tail) = ubntParseTlvAux (ubntFold l r) tail := by
  induction l generalizing r with
  | nil => simp [encodeUbntTlvs, ubntFold]
  | cons tv rest ih =>
    obtain ⟨t, v⟩ := tv
    simp only [encodeUbntTlvs, encodeUbntTlv, List.append_assoc, List.cons_append,
      ubntFold, List.foldl_cons]
    rw [ubntParseTlvAux]
    simp only [be16]
    have hlen : v.length / 256 * 256 + v.length % 256 = v.length := by omega
    rw [hlen]
    have h1 : ¬ ((v ++ (encodeUbntTlvs rest ++ tail)).length < v.length) := by
      simp [List.length_append]
    rw [if_neg h1]
    have h2 : (v ++ (encodeUbntTlvs rest ++ tail)).take v.length = v := by
      simp [List.take_append]
    have h3 : (v ++ (encodeUbntTlvs rest ++ tail)).drop v.length =
        encodeUbntTlvs rest ++ tail := by
      simp [List.drop_append]
    rw [h2, h3, ih]
    rfl

theorem ubntParseTlv_encode (l : List (Nat × List Nat)) :
    ubntParseTlv (encodeUbntTlvs l) = ubntFold l {} := by
  have h := ubntParseTlvAux_encode_append l {} []
  simpa [ubntParseTlv, ubntParseTlvAux_nil] using h

theorem mndpParseTlvAux_encode_append (l : List (Nat × List Nat)) (r : MndpFields)
    (tail : List Nat) :
    mndpParseTlvAux r (encodeMndpTlvs l ++ tail) = mndpParseTlvAux (mndpFold l r) tail := by
  induction l generalizing r with
  | nil => simp [encodeMndpTlvs, mndpFold]
  | cons tv rest ih =>
    obtain ⟨t, v⟩ := tv
    simp only [encodeMndpTlvs, encodeMndpTlv, List.append_assoc, List.cons_append,
      mndpFold, List.foldl_cons]
    rw [mndpParseTlvAux]
    simp only [le16]
    have htype : t % 256 + t / 256 * 256 = t := by omega
    have hlen : v.length % 256 + v.length / 256 * 256 = v.length := by omega
    rw [htype, hlen]
    have h1 : ¬ ((v ++ (encodeMndpTlvs rest ++ tail)).length < v.length) := by
      simp [List.length_append]
    rw [if_neg h1]
    have h2 : (v ++ (encodeMndpTlvs rest ++ tail)).take v.length = v := by
      simp [List.take_append]
    have h3 : (v ++ (encodeMndpTlvs rest ++ tail)).drop v.length =
        encodeMndpTlvs rest ++ tail := by
      simp [List.drop_append]
    rw [h2, h3, ih]
    rfl

theorem mndpParseTlv_encode (l : List (Nat × List Nat)) :
    mndpParseTlv (encodeMndpTlvs l) = mndpFold l {} := by
  have h := mndpParseTlvAux_encode_append l {} []
  simpa [mndpParseTlv, mndpParseTlvAux_nil] using h

theorem encodeUbntTlvs_cons_length (tv : Nat × List Nat) (rest : List (Nat × List Nat)) :
    3 ≤ (encodeUbntTlvs (tv :: rest)).length := by
  simp [encodeUbntTlvs, encodeUbntTlv]

theorem encodeMndpTlvs_cons_length (tv : Nat × List Nat) (rest : List (Nat × List Nat)) :
    4 ≤ (encodeMndpTlvs (tv :: rest)).length := by
  simp [encodeMndpTlvs, encodeMndpTlv]

/-- `parse_packet` on a synthetic Ubiquiti payload with at least one TLV:
the header checks pass and the decision reduces to the folded TLV dict. -/
theorem ubntParsePacket_mk (tv0 : Nat × List Nat) (tlvs : List (Nat × List Nat))
    (srcIp : String) (now : Nat) :
    ubntParsePacket (mkUbntPayload (tv0 :: tlvs)) srcIp now =
      (let tlv := ubntFold (tv0 :: tlvs) {};
       let mac := tlv.mac.getD "";
       if mac = "" then none
       else some { brand := "Ubiquiti", ip := tlv.ip.getD srcIp, mac := mac,
                   name := tlv.hostname.getD "Unknown", model := tlv.model.getD "",
                   firmware := tlv.firmware.getD "", uptime := tlv.uptime.getD 0,
                   discoveredAt := now, lastSeen := now }) := by
  have hlen := encodeUbntTlvs_cons_length tv0 tlvs
  have hl : ¬ ((mkUbntPayload (tv0 :: tlvs)).length < 6) := by
    simp only [mkUbntPayload, List.length_append]
    simp at hlen ⊢
    omega
  have hdrop : (mkUbntPayload (tv0 :: tlvs)).drop 4 = encodeUbntTlvs (tv0 :: tlvs) := by
    simp [mkUbntPayload]
  have htake : (mkUbntPayload (tv0 :: tlvs)).take 2 = [0x01, 0x00] := by
    simp [mkUbntPayload]
  rw [ubntParsePacket, if_neg hl, htake]
  simp only [ne_eq, List.cons.injEq, and_true, true_and]
  rw [if_neg (by simp), hdrop, ubntParseTlv_encode]

/-- `parse_packet` on an encoded MNDP TLV stream with at least one TLV. -/
theorem mndpParsePacket_encode (tv0 : Nat × List Nat) (tlvs : List (Nat × List Nat))
    (srcIp : String) (now : Nat) :
    mndpParsePacket (encodeMndpTlvs (tv0 :: tlvs)) srcIp now =
      (let tlv := mndpFold (tv0 :: tlvs) {};
       let mac := tlv.mac.getD "";
       if mac = "" then none
       else
         let platform := tlv.platform.getD "";
         let board := tlv.board.getD "";
         some { brand := detectBrand platform board, ip := tlv.ip.getD srcIp, mac := mac,
                name := tlv.identity.getD "Unknown",
                model := if board ≠ "" then board else platform,
                firmware := tlv.version.getD "", uptime := tlv.uptime.getD 0,
                discoveredAt := now, lastSeen := now }) := by
  have hlen := encodeMndpTlvs_cons_length tv0 tlvs
  have hl : ¬ ((encodeMndpTlvs (tv0 :: tlvs)).length < 4) := by omega
  rw [mndpParsePacket, if_neg hl, mndpParseTlv_encode]

/-! ### Per-field lemmas about the TLV updates -/

/-- Only a firmware TLV (type `0x03`) writes the `firmware` key. -/
theorem ubntApplyTlv_firmware_of_ne (r : UbntFields) (t : Nat) (v : List Nat)
    (h : t ≠ 0x03) : (ubntApplyTlv r t v).firmware = r.firmware := by
  unfold ubntApplyTlv
  split_ifs <;> simp_all

/-- Folding TLVs none of which has type `0x03` leaves `firmware` unchanged. -/
theorem ubntFold_firmware_of_ne (l : List (Nat × List Nat)) (r : UbntFields)
    (h : ∀ tv ∈ l, tv.1 ≠ 0x03) : (ubntFold l r).firmware = r.firmware := by
  induction l generalizing r with
  | nil => rfl
  | cons tv rest ih =>
    have h0 : tv.1 ≠ 0x03 := h tv (List.mem_cons_self tv rest)
    have hrest : ∀ tv ∈ rest, tv.1 ≠ 0x03 := fun x hx => h x (List.mem_cons_of_mem tv hx)
    simp only [ubntFold, List.foldl_cons]
    rw [show List.foldl (fun a tv => ubntApplyTlv a tv.1 tv.2)
        (ubntApplyTlv r tv.1 tv.2) rest = ubntFold rest (ubntApplyTlv r tv.1 tv.2) from rfl]
    rw [ih _ hrest, ubntApplyTlv_firmware_of_ne r tv.1 tv.2 h0]

/-- A MAC TLV whose value is shorter than 6 bytes does not change the dict
at all (Ubiquiti decoder). -/
theorem ubntApplyTlv_short_mac (r : UbntFields) (v : List Nat) (h : v.length < 6) :
    ubntApplyTlv r 0x01 v = r := by
  unfold ubntApplyTlv
  simp [Nat.not_le.mpr h]

/-- A MAC TLV whose value is shorter than 6 bytes does not change the dict
at all (MNDP decoder). -/
theorem mndpApplyTlv_short_mac (r : MndpFields) (v : List Nat) (h : v.length < 6) :
    mndpApplyTlv r 0x0001 v = r := by
  unfold mndpApplyTlv
  simp [Nat.not_le.mpr h]

/-- The rendering of a 6-byte MAC is never the empty string (so the
`if not mac` rejection cannot fire once a well-formed MAC TLV was seen). -/
theorem formatMac_ne_empty (g : List Nat) (h : g.length = 6) : formatMac g ≠ "" := by
  match g, h with
  | [a, b, c, d, e, f], _ =>
    intro hcontra
    have hlen := congrArg String.length hcontra
    rw [show formatMac [a, b, c, d, e, f] =
        pyFormat02X a ++ ":" ++ pyJoin ":" [pyFormat02X b, pyFormat02X c,
          pyFormat02X d, pyFormat02X e, pyFormat02X f] from rfl] at hlen
    rw [String.length_append, String.length_append] at hlen
    have h1 : (":" : String).length = 1 := rfl
    have h0 : ("" : String).length = 0 := rfl
    rw [h1, h0] at hlen
    omega

/-- Reading back the heap cell a caller wrote through its reference. -/
theorem setIpAt_get (heap : List Device) (a : Nat) (ip : String) (d : Device)
    (h : heap.get? a = some d) : (setIpAt heap a ip).get? a = some { d with ip := ip } := by
  induction heap generalizing a with
  | nil => simp at h
  | cons hd tl ih =>
    cases a with
    | zero => simp_all [setIpAt]
    | succ n => simp_all [setIpAt]

/-! ### Statements taken from the specification's wording

These definitions follow the SPEC's words (not the source) and exist to be
compared against the source-derived definitions above. -/

/-- The brand rule as the spec sentence literally words it: scan the
lower-case CONCATENATION of platform and board (no separator).  The source
inserts a space between the two; this definition exists to compare the two
readings. -/
def claimBrandRule (platform board : String) : String :=
  let combined := pyLower (platform ++ board)
  if pyContains combined "mimosa" then "Mimosa"
  else if mikrotikIndicators.any (fun ind => pyContains combined ind) then "Mikrotik"
  else "Mikrotik/MNDP"

/-- The brand rule as amended: lower-case of platform, a space, and board -
exactly the string the source scans. -/
def specBrandRule (platform board : String) : String :=
  let combined := pyLower (platform ++ " " ++ board)
  if pyContains combined "mimosa" then "Mimosa"
  else if mikrotikIndicators.any (fun ind => pyContains combined ind) then "Mikrotik"
  else "Mikrotik/MNDP"

/-- Trimming as the spec sentence words it for firmware: the TRAILING run
of NUL characters removed, nothing else.  The source's `strip('\x00')`
also removes leading NULs. -/
def specTrimTrailingNul (s : String) : String :=
  String.mk ((s.data.reverse.dropWhile (· == nulChar)).reverse)

/-! ### Concrete fixtures -/

/-- First sighting for the dedup witness: lowercase MAC form. -/
def dedupSighting1 : Device :=
  { brand := "Ubiquiti", ip := "10.0.0.1", mac := "aa:bb:cc:dd:ee:ff", name := "AP",
    discoveredAt := 5, lastSeen := 5 }

/-- Second sighting of the same hardware: uppercase MAC form, new IP. -/
def dedupSighting2 : Device :=
  { brand := "Ubiquiti", ip := "10.0.0.2", mac := "AA:BB:CC:DD:EE:FF", name := "AP",
    discoveredAt := 9, lastSeen := 9 }

/-- The one record of the aliasing fixture. -/
def snapshotDevice : Device :=
  { brand := "Ubiquiti", ip := "10.0.0.1", mac := "AA:BB:CC:DD:EE:FF", name := "ap" }

/-- A registry holding one device at heap address 0. -/
def snapshotState : RegHeapState :=
  { heap := [snapshotDevice], registry := [("AA:BB:CC:DD:EE:FF", 0)] }

/-- MNDP payload with platform `"ACME-R"` and board `"Bravo"`: the pair on
which the space-less and space-joined brand rules disagree. -/
def brandCexTlvs : List (Nat × List Nat) :=
  [(0x0001, [1, 2, 3, 4, 5, 6]),
   (0x0008, [65, 67, 77, 69, 45, 82]),
   (0x000E, [66, 114, 97, 118, 111])]

/-- MNDP scenario payload: platform `"RouterBOARD 951"`, no board TLV. -/
def mndpScenario1 : List Nat :=
  encodeMndpTlvs [(0x0001, [1, 2, 3, 4, 5, 6]),
    (0x0008, [82, 111, 117, 116, 101, 114, 66, 79, 65, 82, 68, 32, 57, 53, 49])]

/-- The Device the scenario-1 payload decodes to. -/
def mndpScenario1Device : Device :=
  { brand := "Mikrotik", ip := "1.1.1.1", mac := "01:02:03:04:05:06", name := "Unknown",
    model := "RouterBOARD 951", firmware := "", uptime := 0, discoveredAt := 0, lastSeen := 0 }

/-! ### Claims -/

/-- C1: feeding the registry's discovery handler two Devices whose MACs are
equal up to letter case but whose `ip` fields differ leaves exactly one
record, keyed by the uppercased MAC, with `ip` the most recently observed
value and `discoveredAt` (indeed the whole identity of the record, bar
`ip`/`lastSeen`) that of the first sighting. -/
theorem registry_dedup_case_insensitive (d1 d2 : Device) (t1 t2 : Nat)
    (hmac : pyUpper d1.mac = pyUpper d2.mac) (hip : d1.ip ≠ d2.ip) :
    getDeviceCount (onDeviceDiscovered (onDeviceDiscovered ⟨[], false⟩ d1 t1).1 d2 t2).1 = 1 ∧
    (onDeviceDiscovered (onDeviceDiscovered ⟨[], false⟩ d1 t1).1 d2 t2).1.devices
      = [(pyUpper d1.mac, { d1 with ip := d2.ip, lastSeen := t2 })] := by
  have h21 : pyUpper d2.mac = pyUpper d1.mac := hmac.symm
  have hdev : (onDeviceDiscovered (onDeviceDiscovered ⟨[], false⟩ d1 t1).1 d2 t2).1.devices
      = [(pyUpper d1.mac, { d1 with ip := d2.ip, lastSeen := t2 })] := by
    simp only [onDeviceDiscovered, Device.uniqueId, List.lookup, List.nil_append]
    rw [h21]
    simp only [beq_self_eq_true, if_true]
    simp only [dictSet, List.map, beq_self_eq_true, if_true]
    simp [hip]
  exact ⟨by rw [getDeviceCount, hdev]; rfl, hdev⟩

/-- Witness for C1 at a concrete pair of sightings differing in MAC case
and IP. -/
theorem registry_dedup_case_insensitive_witness :
    pyUpper dedupSighting1.mac = pyUpper dedupSighting2.mac ∧
    dedupSighting1.ip ≠ dedupSighting2.ip ∧
    (getDeviceCount
        (onDeviceDiscovered (onDeviceDiscovered ⟨[], false⟩ dedupSighting1 5).1
          dedupSighting2 9).1 = 1 ∧
      (onDeviceDiscovered (onDeviceDiscovered ⟨[], false⟩ dedupSighting1 5).1
          dedupSighting2 9).1.devices =
        [(pyUpper dedupSighting1.mac,
          { dedupSighting1 with ip := dedupSighting2.ip, lastSeen := 9 })]) :=
  ⟨by decide, by decide,
   registry_dedup_case_insensitive dedupSighting1 dedupSighting2 5 9 (by decide) (by decide)⟩

/-- C2: what the code actually does when the capture loop exits on a
permission error - `_running` is never cleared, so `isRunning()` still
returns `true` after the loop has terminated, while the registry's devices
are indeed preserved and queryable.  (The claim expects `isRunning()` to
return `false`; the first conjunct documents the divergence.) -/
theorem permission_error_exit_keeps_running_true (s : ManagerState) :
    isRunning (sniffLoopPermissionErrorExit (startManager s)) = true ∧
    (sniffLoopPermissionErrorExit (startManager s)).devices = s.devices ∧
    getDevices (sniffLoopPermissionErrorExit (startManager s)) = getDevices s ∧
    getDeviceCount (sniffLoopPermissionErrorExit (startManager s)) = getDeviceCount s := by
  by_cases h : s.running <;>
    simp [isRunning, sniffLoopPermissionErrorExit, startManager, getDevices, getDeviceCount, h]

/-- C3 counterexample: in the handler's trace for a new device with a
registered callback, the callback invocation runs at lock depth 1 - the
`with self._lock` block has not been exited - refuting "always invoked
with the registry's lock released". -/
theorem callback_fires_inside_lock_cex :
    (HandlerStep.invokeNewCb, 1) ∈ onDiscoveredTrace true true true ∧ (1 : Nat) ≠ 0 := by
  decide

/-- C3 as amended: every notification callback is invoked at lock depth 1
(the lock still held), and because the lock is a reentrant
`threading.RLock`, an acquire by the thread already owning it never
blocks, so a callback re-entering the registry (e.g. `getDevices()`) still
cannot deadlock. -/
theorem callback_lock_held_rlock_no_deadlock :
    (∀ (isNew hasNewCb hasUpdateCb : Bool),
        ∀ p ∈ onDiscoveredTrace isNew hasNewCb hasUpdateCb,
          isCallbackStep p.1 = true → p.2 = 1) ∧
    (∀ (t : Nat) (l : RLockState), l.owner = some t → rlockAcquireBlocks l t = false) := by
  constructor
  · intro isNew hasNewCb hasUpdateCb
    cases isNew <;> cases hasNewCb <;> cases hasUpdateCb <;> decide
  · intro t l h
    cases l with
    | mk o c =>
      cases h
      simp [rlockAcquireBlocks]

/-- Witness for the amended C3 at the new-device trace and a lock held
once by thread 7. -/
theorem callback_lock_held_rlock_no_deadlock_witness :
    (HandlerStep.invokeNewCb, 1) ∈ onDiscoveredTrace true true true ∧
    isCallbackStep HandlerStep.invokeNewCb = true ∧
    ((HandlerStep.invokeNewCb, 1) : HandlerStep × Nat).2 = 1 ∧
    rlockAcquireBlocks ⟨some 7, 1⟩ 7 = false :=
  ⟨by decide, by decide,
   callback_lock_held_rlock_no_deadlock.1 true true true (HandlerStep.invokeNewCb, 1)
     (by decide) (by decide),
   callback_lock_held_rlock_no_deadlock.2 7 ⟨some 7, 1⟩ rfl⟩

/-- C4 counterexample: address 0 is in the list `getDevices()` returns,
and writing the `ip` of the Device behind it changes what the registry
itself subsequently sees - the caller CAN mutate registry state through
the returned value, because the list's elements alias the registry's
records. -/
theorem snapshot_mutable_through_elements_cex :
    0 ∈ getDevicesRefs snapshotState ∧
    registryView (writeDeviceIp snapshotState 0 "10.0.0.99") ≠ registryView snapshotState := by
  decide

/-- C4 as amended: the returned containers are fresh - writing through a
returned reference never changes the registry's key-to-reference map (nor
therefore the reference list or the count) - but the Device elements are
aliased: a write through a returned reference lands in the very record the
registry holds. -/
theorem snapshot_container_copied_elements_aliased :
    (∀ (s : RegHeapState) (a : Nat) (ip : String),
        (writeDeviceIp s a ip).registry = s.registry ∧
        getDevicesRefs (writeDeviceIp s a ip) = getDevicesRefs s) ∧
    (∀ (s : RegHeapState) (a : Nat) (ip : String) (d : Device),
        s.heap.get? a = some d →
        (writeDeviceIp s a ip).heap.get? a = some { d with ip := ip }) :=
  ⟨fun _ _ _ => ⟨rfl, rfl⟩, fun s a ip d h => setIpAt_get s.heap a ip d h⟩

/-- Witness for the amended C4 on the one-device fixture. -/
theorem snapshot_container_copied_elements_aliased_witness :
    snapshotState.heap.get? 0 = some snapshotDevice ∧
    (writeDeviceIp snapshotState 0 "10.0.0.99").heap.get? 0 =
      some { snapshotDevice with ip := "10.0.0.99" } :=
  ⟨by decide,
   snapshot_container_copied_elements_aliased.2 snapshotState 0 "10.0.0.99" snapshotDevice
     (by decide)⟩

/-- C5: both TLV parses are total functions of the payload (no exception
path exists in the embedding, mirroring that no statement in either loop
body can raise), and when a TLV's declared length would read past the end
of the buffer, the parse stops there: the result is exactly the result of
parsing the well-formed TLVs before the overrun. -/
theorem tlv_overrun_soft_stop :
    (∀ (tlvs : List (Nat × List Nat)) (t l1 l2 : Nat) (extra : List Nat),
        extra.length < be16 l1 l2 →
        ubntParseTlv (encodeUbntTlvs tlvs ++ t :: l1 :: l2 :: extra) =
          ubntParseTlv (encodeUbntTlvs tlvs))
    ∧ (∀ (tlvs : List (Nat × List Nat)) (t0 t1 l0 l1 : Nat) (extra : List Nat),
        extra.length < le16 l0 l1 →
        mndpParseTlv (encodeMndpTlvs tlvs ++ t0 :: t1 :: l0 :: l1 :: extra) =
          mndpParseTlv (encodeMndpTlvs tlvs)) := by
  constructor
  · intro tlvs t l1 l2 extra hover
    have hL : ubntParseTlv (encodeUbntTlvs tlvs ++ t :: l1 :: l2 :: extra)
        = ubntParseTlvAux (ubntFold tlvs {}) (t :: l1 :: l2 :: extra) := by
      rw [ubntParseTlv, ubntParseTlvAux_encode_append]
    rw [hL, ubntParseTlv_encode, ubntParseTlvAux]
    split
    · rfl
    · exact absurd hover (by assumption)
  · intro tlvs t0 t1 l0 l1 extra hover
    have hL : mndpParseTlv (encodeMndpTlvs tlvs ++ t0 :: t1 :: l0 :: l1 :: extra)
        = mndpParseTlvAux (mndpFold tlvs {}) (t0 :: t1 :: l0 :: l1 :: extra) := by
      rw [mndpParseTlv, mndpParseTlvAux_encode_append]
    rw [hL, mndpParseTlv_encode, mndpParseTlvAux]
    split
    · rfl
    · exact absurd hover (by assumption)

/-- Witness for C5: a one-TLV stream followed by a TLV whose declared
length 5 exceeds the single byte actually present, for both decoders. -/
theorem tlv_overrun_soft_stop_witness :
    ([0xAA] : List Nat).length < be16 0 5 ∧
    ubntParseTlv (encodeUbntTlvs [(0x01, [1, 2, 3, 4, 5, 6])] ++ 0x03 :: 0 :: 5 :: [0xAA]) =
      ubntParseTlv (encodeUbntTlvs [(0x01, [1, 2, 3, 4, 5, 6])]) ∧
    ([0xAA] : List Nat).length < le16 5 0 ∧
    mndpParseTlv (encodeMndpTlvs [(0x0001, [1, 2, 3, 4, 5, 6])] ++ 0x05 :: 0 :: 5 :: 0 :: [0xAA]) =
      mndpParseTlv (encodeMndpTlvs [(0x0001, [1, 2, 3, 4, 5, 6])]) :=
  ⟨by decide,
   tlv_overrun_soft_stop.1 [(0x01, [1, 2, 3, 4, 5, 6])] 0x03 0 5 [0xAA] (by decide),
   by decide,
   tlv_overrun_soft_stop.2 [(0x0001, [1, 2, 3, 4, 5, 6])] 0x05 0 5 0 [0xAA] (by decide)⟩

/-- C6: encoding a synthetic Ubiquiti payload (valid `01 00` signature,
TLV stream at offset 4) carrying MAC `AA:BB:CC:DD:EE:FF`, hostname
`"AP1"` and uptime 3600, then decoding it, yields a Device with exactly
`mac = "AA:BB:CC:DD:EE:FF"`, `name = "AP1"`, `uptime = 3600` (and the
source-address/default values for the remaining fields). -/
theorem ubnt_synthetic_round_trip :
    ubntParsePacket
        (mkUbntPayload [(0x01, [0xAA, 0xBB, 0xCC, 0xDD, 0xEE, 0xFF]),
          (0x0B, [65, 80, 49]), (0x0E, [0, 0, 14, 16])]) "192.168.1.50" 7 =
      some { brand := "Ubiquiti", ip := "192.168.1.50", mac := "AA:BB:CC:DD:EE:FF",
             name := "AP1", model := "", firmware := "", uptime := 3600,
             discoveredAt := 7, lastSeen := 7 } := by
  rw [ubntParsePacket_mk]
  decide

/-- C7 counterexample: for the payload with platform `"ACME-R"` and board
`"Bravo"`, the rule the claim words (scan the lower-case concatenation of
platform and board) yields `"Mikrotik"` (the concatenation contains the
indicator `"rb"` across the junction), but the decoder yields
`"Mikrotik/MNDP"` because the source scans platform + `' '` + board. -/
theorem brand_rule_no_space_cex :
    (mndpParseTlv (encodeMndpTlvs brandCexTlvs)).platform = some "ACME-R" ∧
    (mndpParseTlv (encodeMndpTlvs brandCexTlvs)).board = some "Bravo" ∧
    (mndpParsePacket (encodeMndpTlvs brandCexTlvs) "1.2.3.4" 0).map (fun d => d.brand) =
      some "Mikrotik/MNDP" ∧
    claimBrandRule "ACME-R" "Bravo" = "Mikrotik" ∧
    ("Mikrotik/MNDP" : String) ≠ "Mikrotik" := by
  refine ⟨?_, ?_, ?_, by decide, by decide⟩
  · rw [mndpParseTlv_encode]; decide
  · rw [mndpParseTlv_encode]; decide
  · rw [show brandCexTlvs = (0x0001, [1, 2, 3, 4, 5, 6]) ::
      [(0x0008, [65, 67, 77, 69, 45, 82]), (0x000E, [66, 114, 97, 118, 111])] from rfl]
    rw [mndpParsePacket_encode]
    decide

/-- C7 as amended: the decoded brand follows the spec's scan rule applied
to the lower-case of platform, a SPACE, and board (`"mimosa"` first, then
the fixed Mikrotik indicator list, else the `"Mikrotik/MNDP"` default);
every decoded Device's brand is that rule's value on its decoded platform
and board strings and its model is the board string when non-empty, else
the platform string; the spec's three scenarios decode accordingly. -/
theorem brand_detection_space_joined :
    (∀ platform board, detectBrand platform board = specBrandRule platform board)
    ∧ (∀ (payload : List Nat) (srcIp : String) (now : Nat) (d : Device),
        mndpParsePacket payload srcIp now = some d →
        d.brand = detectBrand ((mndpParseTlv payload).platform.getD "")
            ((mndpParseTlv payload).board.getD "") ∧
        d.model = (if (mndpParseTlv payload).board.getD "" ≠ ""
            then (mndpParseTlv payload).board.getD ""
            else (mndpParseTlv payload).platform.getD ""))
    ∧ (mndpParsePacket mndpScenario1 "1.1.1.1" 0).map (fun d => d.brand) = some "Mikrotik"
    ∧ (mndpParsePacket (encodeMndpTlvs [(0x0001, [1, 2, 3, 4, 5, 6]),
          (0x0008, [77, 105, 109, 111, 115, 97, 32, 66, 53])])
        "1.1.1.1" 0).map (fun d => d.brand) = some "Mimosa"
    ∧ (mndpParsePacket (encodeMndpTlvs [(0x0001, [1, 2, 3, 4, 5, 6]),
          (0x0008, [83, 111, 109, 101, 86, 101, 110, 100, 111, 114])])
        "1.1.1.1" 0).map (fun d => d.brand) = some "Mikrotik/MNDP" := by
  refine ⟨fun _ _ => rfl, ?_, ?_, ?_, ?_⟩
  · intro payload srcIp now d h
    by_cases h1 : payload.length < 4
    · simp [mndpParsePacket, h1] at h
    by_cases h2 : (mndpParseTlv payload).mac.getD "" = ""
    · simp only [mndpParsePacket, if_neg h1, h2, if_pos] at h
      exact Option.noConfusion h
    · simp only [mndpParsePacket, if_neg h1, if_neg h2] at h
      rw [← Option.some.inj h]
      exact ⟨rfl, rfl⟩
  · rw [show mndpScenario1 = encodeMndpTlvs ((0x0001, [1, 2, 3, 4, 5, 6]) ::
      [(0x0008, [82, 111, 117, 116, 101, 114, 66, 79, 65, 82, 68, 32, 57, 53, 49])]) from rfl]
    rw [mndpParsePacket_encode]
    decide
  · rw [mndpParsePacket_encode]; decide
  · rw [mndpParsePacket_encode]; decide

/-- Witness for the amended C7 on the scenario-1 payload. -/
theorem brand_detection_space_joined_witness :
    mndpParsePacket mndpScenario1 "1.1.1.1" 0 = some mndpScenario1Device ∧
    (mndpScenario1Device.brand = detectBrand ((mndpParseTlv mndpScenario1).platform.getD "")
        ((mndpParseTlv mndpScenario1).board.getD "") ∧
      mndpScenario1Device.model = (if (mndpParseTlv mndpScenario1).board.getD "" ≠ ""
          then (mndpParseTlv mndpScenario1).board.getD ""
          else (mndpParseTlv mndpScenario1).platform.getD "")) :=
  have h : mndpParsePacket mndpScenario1 "1.1.1.1" 0 = some mndpScenario1Device := by
    rw [show mndpScenario1 = encodeMndpTlvs ((0x0001, [1, 2, 3, 4, 5, 6]) ::
      [(0x0008, [82, 111, 117, 116, 101, 114, 66, 79, 65, 82, 68, 32, 57, 53, 49])]) from rfl]
    rw [mndpParsePacket_encode]
    decide
  ⟨h, brand_detection_space_joined.2.1 mndpScenario1 "1.1.1.1" 0 mndpScenario1Device h⟩

/-- C8: `buildFilter()` returns `"udp"` with no scanners, otherwise
`"udp and (port P1 or port P2 or ...)"` over all registered ports; in
particular with ports 10001 and 5678 the result is
`"udp and (port 10001 or port 5678)"`, which contains `"port 10001"` and
`"port 5678"` joined by `"or"`. -/
theorem build_filter_spec :
    buildFilter [] = "udp" ∧
    (∀ ports : List Nat, ports ≠ [] →
      buildFilter ports =
        "udp and (port " ++ pyJoin " or port " (ports.map (fun p => toString p)) ++ ")") ∧
    buildFilter [10001, 5678] = "udp and (port 10001 or port 5678)" ∧
    pyContains (buildFilter [10001, 5678]) "port 10001" = true ∧
    pyContains (buildFilter [10001, 5678]) "port 5678" = true ∧
    pyContains (buildFilter [10001, 5678]) " or " = true := by
  refine ⟨rfl, ?_, by decide, by decide, by decide, by decide⟩
  intro ports h
  simp [buildFilter, h]

/-- Witness for C8's universal clause at the two scanner ports. -/
theorem build_filter_spec_witness :
    ([10001, 5678] : List Nat) ≠ [] ∧
    buildFilter [10001, 5678] =
      "udp and (port " ++
        pyJoin " or port " (([10001, 5678] : List Nat).map (fun p => toString p)) ++ ")" :=
  ⟨by decide, build_filter_spec.2.1 [10001, 5678] (by decide)⟩

/-- C9 counterexample: a firmware TLV with value `00 76 31` (`"\x00v1"`)
decodes to firmware `"v1"` - the source's `strip('\x00')` removes the
LEADING NUL as well - whereas the claim's rule (trailing NUL only) keeps
`"\x00v1"`. -/
theorem firmware_leading_nul_cex :
    (ubntParsePacket (mkUbntPayload [(0x01, [0xAA, 0xBB, 0xCC, 0xDD, 0xEE, 0xFF]),
        (0x03, [0, 118, 49])]) "1.2.3.4" 0).map (fun d => d.firmware) = some "v1" ∧
    specTrimTrailingNul (decodeUtf8Ignore [0, 118, 49]) = "\x00v1" ∧
    ("v1" : String) ≠ "\x00v1" := by
  refine ⟨?_, by decide, by decide⟩
  rw [ubntParsePacket_mk]
  decide

/-- C9 as amended: for every payload whose TLV stream carries a firmware
TLV (type `0x03`, last such if several - here: none after it), the decoded
firmware equals the UTF-8 (errors ignored) decoding of that TLV's value
with NUL characters stripped from BOTH ends, and every decoded Device's
`firmware` field is exactly the TLV dict's firmware value (empty when
absent). -/
theorem firmware_nul_stripped_both_ends :
    (∀ (pre post : List (Nat × List Nat)) (v : List Nat),
        (∀ tv ∈ post, tv.1 ≠ 0x03) →
        (ubntParseTlv (encodeUbntTlvs (pre ++ (0x03, v) :: post))).firmware =
          some (pyStrip0 (decodeUtf8Ignore v)))
    ∧ (∀ (payload : List Nat) (srcIp : String) (now : Nat) (d : Device),
        ubntParsePacket payload srcIp now = some d →
        d.firmware = (ubntParseTlv (payload.drop 4)).firmware.getD "") := by
  constructor
  · intro pre post v hpost
    rw [ubntParseTlv_encode]
    have hsplit : ubntFold (pre ++ (0x03, v) :: post) {} =
        ubntFold post (ubntApplyTlv (ubntFold pre {}) 0x03 v) := by
      simp [ubntFold, List.foldl_append]
    rw [hsplit, ubntFold_firmware_of_ne post _ hpost]
    rfl
  · intro payload srcIp now d h
    by_cases h1 : payload.length < 6
    · simp [ubntParsePacket, h1] at h
    by_cases h2 : payload.take 2 ≠ [0x01, 0x00] ∧ payload.take 2 ≠ [0x02, 0x00]
    · simp only [ubntParsePacket, if_neg h1, if_pos h2] at h
      exact Option.noConfusion h
    by_cases h3 : (ubntParseTlv (payload.drop 4)).mac.getD "" = ""
    · simp only [ubntParsePacket, if_neg h1, if_neg h2, h3, if_pos] at h
      exact absurd h (by simp)
    · simp only [ubntParsePacket, if_neg h1, if_neg h2, if_neg h3] at h
      rw [← Option.some.inj h]

/-- Witness for the amended C9: firmware TLV between a hostname TLV and a
short-model TLV, value starting and ending without a full NUL trim. -/
theorem firmware_nul_stripped_both_ends_witness :
    (∀ tv ∈ ([(0x0C, [66])] : List (Nat × List Nat)), tv.1 ≠ 0x03) ∧
    (ubntParseTlv (encodeUbntTlvs ([(0x0B, [65])] ++ (0x03, [0, 118, 49]) ::
        [(0x0C, [66])]))).firmware = some (pyStrip0 (decodeUtf8Ignore [0, 118, 49])) :=
  ⟨by decide,
   firmware_nul_stripped_both_ends.1 [(0x0B, [65])] [(0x0C, [66])] [0, 118, 49] (by decide)⟩

/-- C10: in both decoders a MAC TLV with a value shorter than 6 bytes
(declared length fitting the buffer) is silently skipped - the parse
result is the same as if the TLV were absent, so neither the parse is
aborted nor the MAC set - and a later well-formed MAC TLV in the same
payload still yields a successful decode carrying that MAC. -/
theorem short_mac_tlv_skipped :
    (∀ (pre post : List (Nat × List Nat)) (v : List Nat), v.length < 6 →
        ubntParseTlv (encodeUbntTlvs (pre ++ (0x01, v) :: post)) =
          ubntParseTlv (encodeUbntTlvs (pre ++ post)))
    ∧ (∀ (pre post : List (Nat × List Nat)) (v : List Nat), v.length < 6 →
        mndpParseTlv (encodeMndpTlvs (pre ++ (0x0001, v) :: post)) =
          mndpParseTlv (encodeMndpTlvs (pre ++ post)))
    ∧ (∀ (v g : List Nat) (srcIp : String) (now : Nat), v.length < 6 → g.length = 6 →
        ∃ d, ubntParsePacket (mkUbntPayload [(0x01, v), (0x01, g)]) srcIp now = some d ∧
          d.mac = formatMac g)
    ∧ (∀ (v g : List Nat) (srcIp : String) (now : Nat), v.length < 6 → g.length = 6 →
        ∃ d, mndpParsePacket (encodeMndpTlvs [(0x0001, v), (0x0001, g)]) srcIp now = some d ∧
          d.mac = formatMac g) := by
  refine ⟨?_, ?_, ?_, ?_⟩
  · intro pre post v hv
    rw [ubntParseTlv_encode, ubntParseTlv_encode]
    simp only [ubntFold, List.foldl_append, List.foldl_cons]
    rw [ubntApplyTlv_short_mac _ v hv]
  · intro pre post v hv
    rw [mndpParseTlv_encode, mndpParseTlv_encode]
    simp only [mndpFold, List.foldl_append, List.foldl_cons]
    rw [mndpApplyTlv_short_mac _ v hv]
  · intro v g srcIp now hv hg
    rw [ubntParsePacket_mk]
    have hfold : ubntFold [(0x01, v), (0x01, g)] ({} : UbntFields) =
        { mac := some (formatMac g) } := by
      show ubntApplyTlv (ubntApplyTlv {} 0x01 v) 0x01 g = _
      rw [ubntApplyTlv_short_mac _ v hv]
      unfold ubntApplyTlv
      rw [if_pos rfl, if_pos (by omega)]
      rw [show g.take 6 = g from by rw [← hg, List.take_length]]
    rw [hfold]
    simp only [Option.getD_some]
    rw [if_neg (formatMac_ne_empty g hg)]
    exact ⟨_, rfl, rfl⟩
  · intro v g srcIp now hv hg
    rw [mndpParsePacket_encode]
    have hfold : mndpFold [(0x0001, v), (0x0001, g)] ({} : MndpFields) =
        { mac := some (formatMac g) } := by
      show mndpApplyTlv (mndpApplyTlv {} 0x0001 v) 0x0001 g = _
      rw [mndpApplyTlv_short_mac _ v hv]
      unfold mndpApplyTlv
      rw [if_pos rfl, if_pos (by omega)]
      rw [show g.take 6 = g from by rw [← hg, List.take_length]]
    rw [hfold]
    simp only [Option.getD_some]
    rw [if_neg (formatMac_ne_empty g hg)]
    exact ⟨_, rfl, rfl⟩

/-- Witness for C10: a 2-byte MAC TLV followed by a 6-byte one. -/
theorem short_mac_tlv_skipped_witness :
    ([9, 9] : List Nat).length < 6 ∧
    ([1, 2, 3, 4, 5, 6] : List Nat).length = 6 ∧
    (∃ d, ubntParsePacket (mkUbntPayload [(0x01, [9, 9]), (0x01, [1, 2, 3, 4, 5, 6])])
        "9.9.9.9" 3 = some d ∧ d.mac = formatMac [1, 2, 3, 4, 5, 6]) :=
  ⟨by decide, by decide,
   short_mac_tlv_skipped.2.2.1 [9, 9] [1, 2, 3, 4, 5, 6] "9.9.9.9" 3 (by decide) (by decide)⟩

end NetDiscovery
